import Mathlib

/-!
Verification of the libdatachannel TlsTransport core
(src/src/impl/tlstransport.cpp), shallowly embedded in Lean 4.

The file models, from the source:
* the connection state machine and the terminal resolution of the
  Receive Task (doRecv) for the three backend variants (GnuTLS,
  MbedTLS, OpenSSL);
* the pull callback (ReadCallback) serving the incoming byte queue;
* the fault-translation wrappers of the backend-invoked callbacks;
* send() with its state guard and the stored push result;
* the Receive Task scheduling (enqueueRecv / mPendingRecvCount) and
  the per-instance receive mutex.

The native TLS engines (gnutls_handshake, mbedtls_ssl_read,
SSL_do_handshake, ...) are external libraries; their per-call results
are abstracted as oracles: a finite list of the results the engine
returns during one Receive Task run.  An exhausted oracle list models
an engine that would block (the run returns early, exactly as it does
on GNUTLS_E_AGAIN / MBEDTLS_ERR_SSL_WANT_READ).

Transport::changeState, Transport::recv and Queue are declared in
headers outside src/; where a claim depends on them they are modelled
from the spec (see the doc comments of changeState and recvUp).
-/

namespace TlsTransport

/-- Connection states (rtc::impl::Transport::State); the source uses
Disconnected both as the initial and as the terminal-closed state. -/
inductive State where
  | Disconnected
  | Connecting
  | Connected
  | Failed
deriving DecidableEq

/-- One upward delivery through Transport::recv: a data message
(recv(make_message ...)) or the end-of-stream signal (recv(nullptr)). -/
inductive Delivery where
  | data (m : List Nat)
  | eos
deriving DecidableEq

/-- Observable footprint of one transport instance: its connection
state, the log of upward deliveries, and the log of state-observer
notifications. -/
structure Inst where
  state : State
  delivered : List Delivery
  notified : List State
deriving DecidableEq

/-- Modelled from the spec: Transport::changeState (declared outside
src/).  Sets the state and fires exactly one observer notification per
transition; a call with the current state is not a transition and
fires no notification. -/
def changeState (i : Inst) (s : State) : Inst :=
  if i.state = s then i
  else { i with state := s, notified := i.notified ++ [s] }

/-- Modelled from the spec: Transport::recv (declared outside src/),
the upward delivery path; it appends one delivery to the upward log. -/
def recvUp (i : Inst) (d : Delivery) : Inst :=
  { i with delivered := i.delivered ++ [d] }

/-- Terminal resolution of the Receive Task, identical in the three
backends (lines 217-224, 474-481 and 736-743 of tlstransport.cpp):
if the state is Connected, transition to Disconnected and deliver one
end-of-stream signal upward; otherwise transition to Failed and
deliver nothing. -/
def resolveRecv (i : Inst) : Inst :=
  if i.state = State.Connected then
    recvUp (changeState i State.Disconnected) Delivery.eos
  else
    changeState i State.Failed

/-! ### GnuTLS Receive Task (doRecv, lines 163-225)

Engine oracle: one constructor per distinguishable outcome of a
gnutls_handshake / gnutls_record_recv call as the source branches on
it. -/

/-- Result of one gnutls_handshake call as branched on in doRecv:
GNUTLS_E_AGAIN; a non-fatal error (gnutls::check returns false, the
loop re-calls); success (ret >= 0); a fatal error (gnutls::check
throws). -/
inductive GHsStep where
  | eAgain
  | nonFatal
  | ok
  | fatal
deriving DecidableEq

/-- Outcome of the handshake loop: early return (would block),
completed, or an exception thrown to the catch block. -/
inductive HsOut where
  | early
  | completed
  | threw
deriving DecidableEq

/-- The gnutls handshake loop (lines 173-180): re-calls on non-fatal
errors, returns on GNUTLS_E_AGAIN, exits on success, throws on fatal
errors.  An exhausted oracle models an engine that would block. -/
def runGnutlsHandshake : List GHsStep → HsOut
  | [] => HsOut.early
  | GHsStep.eAgain :: _ => HsOut.early
  | GHsStep.nonFatal :: rest => runGnutlsHandshake rest
  | GHsStep.ok :: _ => HsOut.completed
  | GHsStep.fatal :: _ => HsOut.threw

/-- Result of one gnutls_record_recv call as branched on in doRecv:
GNUTLS_E_AGAIN; GNUTLS_E_PREMATURE_TERMINATION; a non-fatal error
(gnutls::check returns false, loop continues); a fatal error
(gnutls::check throws); ret == 0 (clean close); ret > 0 with the
decrypted record. -/
inductive GRecStep where
  | eAgain
  | premature
  | nonFatal
  | fatal
  | ok0
  | okData (m : List Nat)
deriving DecidableEq

/-- The gnutls record-receive loop (lines 187-210).  Returns the
instance with the records delivered upward and whether the loop fell
through to terminal resolution (true) or returned early on
GNUTLS_E_AGAIN (false). -/
def runGnutlsRecord (i : Inst) : List GRecStep → Inst × Bool
  | [] => (i, false)
  | GRecStep.eAgain :: _ => (i, false)
  | GRecStep.premature :: _ => (i, true)
  | GRecStep.ok0 :: _ => (i, true)
  | GRecStep.fatal :: _ => (i, true)
  | GRecStep.nonFatal :: rest => runGnutlsRecord i rest
  | GRecStep.okData m :: rest => runGnutlsRecord (recvUp i (Delivery.data m)) rest

/-- The two phases of the GnuTLS doRecv (handshake then record
receive), without the final resolution.  Returns the instance and
whether control reaches terminal resolution.  Note the GnuTLS variant
has no early return for states other than Connecting/Connected: a run
started in a terminal state falls through to gnutls_bye and terminal
resolution. -/
def gnutlsPhases (i : Inst) (hs : List GHsStep) (rc : List GRecStep) : Inst × Bool :=
  if i.state = State.Connecting then
    match runGnutlsHandshake hs with
    | HsOut.early => (i, false)
    | HsOut.threw => (i, true)
    | HsOut.completed => runGnutlsRecord (changeState i State.Connected) rc
  else if i.state = State.Connected then
    runGnutlsRecord i rc
  else (i, true)

/-- GnuTLS TlsTransport::doRecv, lines 163-225 (gnutls_bye has no
observable effect and is dropped). -/
def gnutlsDoRecv (i : Inst) (hs : List GHsStep) (rc : List GRecStep) : Inst :=
  match gnutlsPhases i hs rc with
  | (j, true) => resolveRecv j
  | (j, false) => j

/-! ### MbedTLS Receive Task (doRecv, lines 410-482) -/

/-- Result of one mbedtls_ssl_handshake call as branched on in doRecv:
WANT_READ/WANT_WRITE; ASYNC_IN_PROGRESS/CRYPTO_IN_PROGRESS (loop
continues); success; any other error (mbedtls::check throws). -/
inductive MHsStep where
  | wantRW
  | async
  | ok
  | fatal
deriving DecidableEq

/-- The mbedtls handshake loop (lines 422-442). -/
def runMbedHandshake : List MHsStep → HsOut
  | [] => HsOut.early
  | MHsStep.wantRW :: _ => HsOut.early
  | MHsStep.async :: rest => runMbedHandshake rest
  | MHsStep.ok :: _ => HsOut.completed
  | MHsStep.fatal :: _ => HsOut.threw

/-- Result of one mbedtls_ssl_read call as branched on in doRecv:
WANT_READ/WANT_WRITE; ASYNC/CRYPTO in progress; 0 or
PEER_CLOSE_NOTIFY (clean close); any other error (mbedtls::check
throws); a decrypted record. -/
inductive MRecStep where
  | wantRW
  | async
  | closed
  | fatal
  | okData (m : List Nat)
deriving DecidableEq

/-- The mbedtls read loop (lines 444-469). -/
def runMbedRecord (i : Inst) : List MRecStep → Inst × Bool
  | [] => (i, false)
  | MRecStep.wantRW :: _ => (i, false)
  | MRecStep.closed :: _ => (i, true)
  | MRecStep.fatal :: _ => (i, true)
  | MRecStep.async :: rest => runMbedRecord i rest
  | MRecStep.okData m :: rest => runMbedRecord (recvUp i (Delivery.data m)) rest

/-- MbedTLS TlsTransport::doRecv, lines 410-482.  Unlike the GnuTLS
variant it returns immediately when the state is neither Connecting
nor Connected (lines 414-415). -/
def mbedtlsDoRecv (i : Inst) (hs : List MHsStep) (rc : List MRecStep) : Inst :=
  if i.state ≠ State.Connecting ∧ i.state ≠ State.Connected then i
  else
    match
      (if i.state = State.Connecting then
        match runMbedHandshake hs with
        | HsOut.early => (i, false)
        | HsOut.threw => (i, true)
        | HsOut.completed => runMbedRecord (changeState i State.Connected) rc
      else runMbedRecord i rc) with
    | (j, true) => resolveRecv j
    | (j, false) => j

/-! ### OpenSSL Receive Task (doRecv, lines 682-744)

The OpenSSL variant drives the engine through memory BIOs: it pops
incoming messages itself, writes non-empty ones into the input BIO and
passes zero-sized ones through upward, then advances the handshake and
drains SSL_read.  openssl::check (declared outside src/) yields three
outcomes, abstracted as an oracle per popped message. -/

/-- Outcome of openssl::check on an SSL call: true (success or
would-block), false (clean close, SSL_ERROR_ZERO_RETURN), or a thrown
exception (fatal error). -/
inductive ORes where
  | ok
  | closedR
  | threw
deriving DecidableEq

/-- Engine oracle for one iteration of the OpenSSL doRecv loop
(handshake outcome, whether SSL_is_init_finished afterwards, the
ciphertext flushed from the output BIO, the records SSL_read yields,
the outcome ending the SSL_read drain, and whether an alert reported
through InfoCallback stopped the incoming queue during the calls). -/
structure OIter where
  hs : ORes
  hsFinished : Bool
  flush : List (List Nat)
  reads : List (List Nat)
  readEnd : ORes
  alert : Bool
deriving DecidableEq

/-- State of the OpenSSL variant: the instance, the incoming queue
contents and running flag, the log of ciphertext handed to the engine
(BIO_write), and the log of ciphertext pushed to the lower transport
(flushOutput). -/
structure OSt where
  inst : Inst
  queue : List (List Nat)
  running : Bool
  bio : List (List Nat)
  out : List (List Nat)
deriving DecidableEq

/-- InfoCallback on an alert stops the incoming queue (lines 757-767);
modelled as a per-iteration flag applied before the next loop test. -/
def applyAlert (s : OSt) (it : OIter) : OSt :=
  if it.alert then { s with running := false } else s

/-- Routing of one popped message (lines 699-703): a non-empty
message is written into the input BIO, a zero-sized one is passed
straight through to the upward receive path. -/
def opensslRoute1 (s : OSt) (m : List Nat) (q : List (List Nat)) : OSt :=
  if m = [] then { s with queue := q, inst := recvUp s.inst (Delivery.data m) }
  else { s with queue := q, bio := s.bio ++ [m] }

/-- Effects of a successful SSL_do_handshake call (lines 711-717):
flushOutput pushes the buffered ciphertext, and the state advances to
Connected once SSL_is_init_finished holds. -/
def opensslHsPhase (s : OSt) (it : OIter) : OSt :=
  let s2 : OSt := { s with out := s.out ++ it.flush }
  if it.hsFinished then { s2 with inst := changeState s2.inst State.Connected }
  else s2

/-- The SSL_read drain (lines 721-723): each produced record is
delivered upward. -/
def opensslReads (s : OSt) (it : OIter) : OSt :=
  { s with inst := it.reads.foldl (fun a r => recvUp a (Delivery.data r)) s.inst }

/-- The message-processing loop of the OpenSSL doRecv (lines 694-728):
while the queue is running, pop one message (returning early when the
queue is empty), route it (non-empty to the input BIO, zero-sized
straight upward), continue the handshake while Connecting, and drain
SSL_read while Connected.  Returns the state and whether control falls
through to SSL_shutdown and terminal resolution. -/
def opensslLoop (s : OSt) : List OIter → OSt × Bool
  | [] => if s.running then (s, false) else (s, true)
  | it :: rest =>
    if s.running = false then (s, true)
    else match s.queue with
    | [] => (s, false)
    | m :: q =>
      let s1 := opensslRoute1 s m q
      if s1.inst.state = State.Connecting then
        match it.hs with
        | ORes.threw => (s1, true)
        | ORes.closedR => (s1, true)
        | ORes.ok =>
          let s3 := opensslHsPhase s1 it
          if s3.inst.state = State.Connected then
            let s4 := opensslReads s3 it
            match it.readEnd with
            | ORes.ok => opensslLoop (applyAlert s4 it) rest
            | ORes.closedR => (s4, true)
            | ORes.threw => (s4, true)
          else opensslLoop (applyAlert s3 it) rest
      else
        if s1.inst.state = State.Connected then
          let s4 := opensslReads s1 it
          match it.readEnd with
          | ORes.ok => opensslLoop (applyAlert s4 it) rest
          | ORes.closedR => (s4, true)
          | ORes.threw => (s4, true)
        else opensslLoop (applyAlert s1 it) rest

/-- OpenSSL TlsTransport::doRecv, lines 682-744.  Returns immediately
when the state is neither Connecting nor Connected (lines 686-687);
otherwise runs the loop and, unless it returned early, resolves
terminally (SSL_shutdown has no observable effect and is dropped). -/
def opensslDoRecv (s : OSt) (iters : List OIter) : OSt :=
  if s.inst.state ≠ State.Connecting ∧ s.inst.state ≠ State.Connected then s
  else
    match opensslLoop s iters with
    | (s', true) => { s' with inst := resolveRecv s'.inst }
    | (s', false) => s'

/-! ### Pull callback (ReadCallback, GnuTLS lines 244-285, MbedTLS
lines 492-528 — the two bodies are identical up to the backend's
error-code conventions, so the core is modelled once). -/

/-- Cursor state of the pull path: the current buffer
(mIncomingMessage), the byte offset into it (mIncomingMessagePosition),
the incoming queue with its running flag, and the upward delivery log
(for zero-sized pass-through). -/
structure PullCtx where
  message : Option (List Nat)
  position : Nat
  queue : List (List Nat)
  running : Bool
  delivered : List Delivery
deriving DecidableEq

/-- The pop loop inside ReadCallback (lines 255-261): pop buffers
until a non-empty one is found, passing each zero-sized one straight
upward.  Returns the final value of the current-message variable (note
it stays bound to the last zero-sized buffer when the queue is
exhausted by the loop), the remaining queue, and the buffers passed
through upward. -/
def popLoop : List (List Nat) → Option (List Nat) × List (List Nat) × List (List Nat)
  | [] => (none, [], [])
  | m :: rest =>
    if m = [] then
      match popLoop rest with
      | (mo, q', ds) => (some (mo.getD m), q', m :: ds)
    else (some m, rest, [])

/-- Lines 250-251: drop the current buffer once the cursor has
consumed it. -/
def resetDone (c : PullCtx) : PullCtx :=
  match c.message with
  | some m => if m.length ≤ c.position then { c with message := none } else c
  | none => c

/-- Lines 253-261: when no current buffer is held, reset the cursor
and run the pop loop. -/
def refill (c : PullCtx) : PullCtx :=
  match c.message with
  | some _ => c
  | none =>
    { c with message := (popLoop c.queue).1, position := 0,
             queue := (popLoop c.queue).2.1,
             delivered := c.delivered ++ ((popLoop c.queue).2.2).map Delivery.data }

/-- Abstract result of the pull core: bytes copied out (lines
264-270), would-block (lines 271-273), or end-of-stream (lines
274-277). -/
inductive PullOut where
  | served (b : List Nat)
  | wouldBlock
  | eofQ
deriving DecidableEq

/-- The shared body of ReadCallback: advance past a consumed buffer,
refill from the queue, then copy min(maxlen, available) bytes from the
current buffer and advance the cursor; with no buffer held, signal
would-block while the queue runs and end-of-stream once stopped. -/
def pullCore (c : PullCtx) (maxlen : Nat) : PullOut × PullCtx :=
  let c2 := refill (resetDone c)
  match c2.message with
  | some m =>
    let len := min maxlen (m.length - c2.position)
    (PullOut.served ((m.drop c2.position).take len),
     { c2 with position := c2.position + len })
  | none =>
    if c2.running then (PullOut.wouldBlock, c2) else (PullOut.eofQ, c2)

def EAGAIN : Int := 11
def ECONNRESET : Int := 104

/-- GnuTLS return-value convention of the pull callback (ssize_t plus
the transport errno): served bytes return their count with errno 0,
would-block returns -1 with EAGAIN, end-of-stream returns 0.  Note a
served zero-sized buffer also returns 0. -/
def gnutlsPullRet : PullOut → Int × Int
  | PullOut.served b => (Int.ofNat b.length, 0)
  | PullOut.wouldBlock => (-1, EAGAIN)
  | PullOut.eofQ => (0, 0)

def MBEDTLS_ERR_SSL_WANT_READ : Int := -26880
def MBEDTLS_ERR_SSL_CONN_EOF : Int := -29312
def MBEDTLS_ERR_SSL_INTERNAL_ERROR : Int := -28928

/-- MbedTLS return-value convention of the read callback (lines
512-522). -/
def mbedtlsPullRet : PullOut → Int
  | PullOut.served b => Int.ofNat b.length
  | PullOut.wouldBlock => MBEDTLS_ERR_SSL_WANT_READ
  | PullOut.eofQ => MBEDTLS_ERR_SSL_CONN_EOF

/-! ### Fault translation at the backend callback boundary (claim C7)

A fault is an exception escaping the C++ code invoked inside a
backend callback (for instance Transport::outgoing throwing on a
lower-transport failure).  A callback body that may fault is embedded
as an Except value; a callback returning a plain (non-Except) type
cannot propagate an exception. -/

inductive Fault where
  | exc
deriving DecidableEq

/-- GnuTLS WriteCallback (lines 227-242): pushes the record downward
when len > 0 and returns (len, errno 0); a fault is caught and
translated to (-1, ECONNRESET).  Total return type: no exception
leaves the callback. -/
def gnutlsWriteCallback (push : Except Fault Bool) (len : Nat) : Int × Int :=
  if len = 0 then (Int.ofNat len, 0)
  else
    match push with
    | Except.ok _ => (Int.ofNat len, 0)
    | Except.error _ => (-1, ECONNRESET)

/-- GnuTLS ReadCallback (lines 244-285): the pull core wrapped in the
try/catch that translates a fault into (-1, ECONNRESET). -/
def gnutlsReadCallback (fault : Bool) (c : PullCtx) (maxlen : Nat) :
    (Int × Int) × PullCtx :=
  if fault then ((-1, ECONNRESET), c)
  else
    match pullCore c maxlen with
    | (o, c') => (gnutlsPullRet o, c')

/-- GnuTLS TimeoutCallback (lines 287-302): reports 1 when a pull
would succeed (bytes left in the current buffer or a non-empty queue);
a fault is caught and translated to the return value 1. -/
def gnutlsTimeoutCallback (fault : Bool) (c : PullCtx) : Int :=
  if fault then 1
  else if (match c.message with
           | some m => decide (c.position < m.length)
           | none => false) then 1
  else if c.queue ≠ [] then 1 else 0

/-- MbedTLS WriteCallback (lines 484-490): pushes the record downward
and returns len.  There is no try/catch in this callback: a fault in
Transport::outgoing propagates out of it into the mbedtls stack, which
the Except return type records. -/
def mbedtlsWriteCallback (push : Except Fault Bool) (len : Nat) :
    Except Fault Int :=
  match push with
  | Except.ok _ => Except.ok (Int.ofNat len)
  | Except.error f => Except.error f

/-- MbedTLS ReadCallback (lines 492-528): the pull core wrapped in the
try/catch that translates a fault into MBEDTLS_ERR_SSL_INTERNAL_ERROR. -/
def mbedtlsReadCallback (fault : Bool) (c : PullCtx) (maxlen : Nat) :
    Int × PullCtx :=
  if fault then (MBEDTLS_ERR_SSL_INTERNAL_ERROR, c)
  else
    match pullCore c maxlen with
    | (o, c') => (mbedtlsPullRet o, c')

/-! ### send (GnuTLS lines 121-139, MbedTLS lines 373-386, OpenSSL
lines 648-662) and outgoing (lines 153-157, 400-404, 676)

The record layer is abstracted as an oracle: the list of (ciphertext
chunk, lower-transport push result) pairs the engine flushes through
the push path while the record write runs, plus whether the write
itself succeeds (a failing write makes the check helper throw). -/

/-- State touched by send: the connection state, the stored result of
the most recent push (mOutgoingResult, GnuTLS/MbedTLS only), the log
of pushes to the lower transport (Transport::outgoing), and the log of
plaintext handed to the record layer. -/
structure SendSt where
  state : State
  outRes : Bool
  pushLog : List (Option (List Nat))
  recLog : List (List Nat)
deriving DecidableEq

/-- GnuTLS/MbedTLS TlsTransport::outgoing (lines 153-157, 400-404):
push to the lower transport and store the result in mOutgoingResult. -/
def outgoingStore (s : SendSt) (m : Option (List Nat)) (res : Bool) : SendSt :=
  { s with pushLog := s.pushLog ++ [m], outRes := res }

/-- OpenSSL TlsTransport::outgoing (line 676): plain pass-down, no
stored result. -/
def outgoingPlain (s : SendSt) (m : Option (List Nat)) : SendSt :=
  { s with pushLog := s.pushLog ++ [m] }

/-- GnuTLS TlsTransport::send (lines 121-139).  Returns the new state
and some result, or none when the call throws ("TLS is not open" when
the state is not Connected, "TLS send failed" when the record write
fails).  chunks: the ciphertext the engine pushes through WriteCallback
-> outgoing during gnutls_record_send, each with its lower-transport
result; passRes: the lower-transport result of the empty-message
pass-through. -/
def gnutlsSend (s : SendSt) (m : Option (List Nat))
    (chunks : List (List Nat × Bool)) (passRes : Bool) (writeOk : Bool) :
    SendSt × Option Bool :=
  if s.state ≠ State.Connected then (s, none)
  else
    match m with
    | none => (outgoingStore s none passRes, some passRes)
    | some [] => (outgoingStore s (some []) passRes, some passRes)
    | some msg =>
      let s1 : SendSt := { s with recLog := s.recLog ++ [msg] }
      let s2 := chunks.foldl (fun a cr => outgoingStore a (some cr.1) cr.2) s1
      if writeOk then (s2, some s2.outRes) else (s2, none)

/-- MbedTLS TlsTransport::send (lines 373-386): identical driving
logic (mbedtls_ssl_write pushing through WriteCallback -> outgoing,
mbedtls::check throwing on failure, mOutgoingResult returned). -/
def mbedtlsSend (s : SendSt) (m : Option (List Nat))
    (chunks : List (List Nat × Bool)) (passRes : Bool) (writeOk : Bool) :
    SendSt × Option Bool :=
  if s.state ≠ State.Connected then (s, none)
  else
    match m with
    | none => (outgoingStore s none passRes, some passRes)
    | some [] => (outgoingStore s (some []) passRes, some passRes)
    | some msg =>
      let s1 : SendSt := { s with recLog := s.recLog ++ [msg] }
      let s2 := chunks.foldl (fun a cr => outgoingStore a (some cr.1) cr.2) s1
      if writeOk then (s2, some s2.outRes) else (s2, none)

/-- OpenSSL flushOutput (lines 746-755): push every chunk buffered in
the output BIO; the result is the last push result, or true when
nothing was buffered. -/
def flushOutput (s : SendSt) (chunks : List (List Nat × Bool)) : SendSt × Bool :=
  chunks.foldl (fun a cr => (outgoingPlain a.1 (some cr.1), cr.2)) (s, true)

/-- OpenSSL TlsTransport::send (lines 648-662): same state guard and
empty-message pass-through; a successful SSL_write is followed by
flushOutput, whose result is returned. -/
def opensslSend (s : SendSt) (m : Option (List Nat))
    (chunks : List (List Nat × Bool)) (passRes : Bool) (writeOk : Bool) :
    SendSt × Option Bool :=
  if s.state ≠ State.Connected then (s, none)
  else
    match m with
    | none => (outgoingPlain s none, some passRes)
    | some [] => (outgoingPlain s (some []), some passRes)
    | some msg =>
      let s1 : SendSt := { s with recLog := s.recLog ++ [msg] }
      if writeOk then
        match flushOutput s1 chunks with
        | (s2, res) => (s2, some res)
      else (s1, none)

/-! ### Receive Task scheduling (enqueueRecv, lines 25-33; the
decrement at the head of doRecv, lines 163-165)

The scheduler is embedded as a transition system: states carry the
pending counter, the number of tasks enqueued in the worker pool, the
number dispatched and waiting on the receive mutex, the mutex itself,
and the number of tasks inside the doRecv body.  Each public call is
one atomic step. -/

structure Sched where
  count : Int
  queued : Nat
  waiting : Nat
  locked : Bool
  inBody : Nat
  alive : Bool
deriving DecidableEq

/-- TlsTransport::enqueueRecv (lines 25-33): a no-op when the pending
counter is positive; otherwise, when the instance is still alive
(weak_from_this can be locked), increment the counter and enqueue one
doRecv on the thread pool. -/
def enqueueRecv (s : Sched) : Sched :=
  if 0 < s.count then s
  else if s.alive then { s with count := s.count + 1, queued := s.queued + 1 }
  else s

/-- Interleaved steps of the scheduling model: an enqueueRecv call
(from incoming() or stop()); the pool dispatching a queued task; a
dispatched task acquiring mRecvMutex and performing the
--mPendingRecvCount at the head of doRecv; the task finishing and
releasing the mutex; the instance retiring (its weak references
expire). -/
inductive SchedStep : Sched → Sched → Prop where
  | enqueue (s : Sched) : SchedStep s (enqueueRecv s)
  | dispatch (s : Sched) (h : 0 < s.queued) :
      SchedStep s { s with queued := s.queued - 1, waiting := s.waiting + 1 }
  | acquire (s : Sched) (h : 0 < s.waiting) (hl : s.locked = false) :
      SchedStep s { s with waiting := s.waiting - 1, locked := true,
                           inBody := s.inBody + 1, count := s.count - 1 }
  | release (s : Sched) (h : 0 < s.inBody) :
      SchedStep s { s with inBody := s.inBody - 1, locked := false }
  | retire (s : Sched) : SchedStep s { s with alive := false }

def SchedInit : Sched :=
  { count := 0, queued := 0, waiting := 0, locked := false, inBody := 0, alive := true }

def SchedReachable (s : Sched) : Prop :=
  Relation.ReflTransGen SchedStep SchedInit s

/-- Inductive invariant of the scheduler: the pending counter counts
exactly the tasks enqueued or waiting, never exceeds one, and the
receive mutex admits at most one task into the doRecv body. -/
def SchedInv (s : Sched) : Prop :=
  s.count = (s.queued : Int) + (s.waiting : Int) ∧
  s.queued + s.waiting ≤ 1 ∧
  s.inBody = (if s.locked then 1 else 0)

/-! For the mutual-exclusion claim (C9) the coalescing is deliberately
not assumed: arbitrarily many doRecv tasks may be spawned by racing
producers, and only the receive mutex (the first statement of every
doRecv body) is relied on. -/

structure MtxSys where
  waiting : Nat
  locked : Bool
  inBody : Nat
deriving DecidableEq

/-- Steps of the mutex model: any number of doRecv tasks may be
spawned concurrently; one enters the body only by acquiring the free
mRecvMutex (std::lock_guard at line 164); leaving the body releases
it. -/
inductive MtxStep : MtxSys → MtxSys → Prop where
  | spawn (s : MtxSys) : MtxStep s { s with waiting := s.waiting + 1 }
  | acquire (s : MtxSys) (h : 0 < s.waiting) (hl : s.locked = false) :
      MtxStep s { s with waiting := s.waiting - 1, locked := true,
                         inBody := s.inBody + 1 }
  | release (s : MtxSys) (h : 0 < s.inBody) :
      MtxStep s { s with inBody := s.inBody - 1, locked := false }

def MtxInit : MtxSys := { waiting := 0, locked := false, inBody := 0 }

def MtxReachable (s : MtxSys) : Prop :=
  Relation.ReflTransGen MtxStep MtxInit s

def MtxInv (s : MtxSys) : Prop := s.inBody = (if s.locked then 1 else 0)

/-- Provenance of the observable effects of one run of the OpenSSL
message loop: the buffers popped from the queue (ps) split into the
non-empty ones, appended to the engine-input BIO, and the zero-sized
ones; the upward deliveries added (ds) are exactly the zero-sized
pass-throughs plus non-empty engine-produced records. -/
def RouteOK (s t : OSt) : Prop :=
  ∃ ps ds,
    s.queue = ps ++ t.queue ∧
    t.bio = s.bio ++ ps.filter (fun m => !m.isEmpty) ∧
    t.inst.delivered = s.inst.delivered ++ ds ∧
    (∀ d ∈ ds, d = Delivery.data [] ∨ ∃ r, ¬r = [] ∧ d = Delivery.data r) ∧
    ds.count (Delivery.data []) = (ps.filter (fun m => m.isEmpty)).length

theorem schedInv_init : SchedInv SchedInit := by
  simp [SchedInv, SchedInit]

theorem schedInv_step {s t : Sched} (h : SchedStep s t) (hs : SchedInv s) :
    SchedInv t := by
  obtain ⟨h1, h2, h3⟩ := hs
  cases h with
  | enqueue =>
    unfold SchedInv enqueueRecv
    split
    next => exact ⟨h1, h2, h3⟩
    next hc =>
      split
      next =>
        dsimp only
        exact ⟨by omega, by omega, h3⟩
      next => exact ⟨h1, h2, h3⟩
  | dispatch hq =>
    unfold SchedInv
    dsimp only
    exact ⟨by omega, by omega, h3⟩
  | acquire hw hl =>
    have h0 : s.inBody = 0 := by rw [hl] at h3; simpa using h3
    unfold SchedInv
    dsimp only
    refine ⟨by omega, by omega, ?_⟩
    simp [h0]
  | release hb =>
    have hle : s.inBody ≤ 1 := by split at h3 <;> omega
    unfold SchedInv
    dsimp only
    refine ⟨h1, h2, ?_⟩
    simp only [Bool.false_eq_true, if_false]
    omega
  | retire => exact ⟨h1, h2, h3⟩

theorem schedInv_reachable {s : Sched} (h : SchedReachable s) : SchedInv s := by
  induction h with
  | refl => exact schedInv_init
  | tail _ hstep ih => exact schedInv_step hstep ih

theorem mtxInv_step {s t : MtxSys} (h : MtxStep s t) (hs : MtxInv s) : MtxInv t := by
  unfold MtxInv at hs ⊢
  cases h with
  | spawn => exact hs
  | acquire hw hl =>
    have h0 : s.inBody = 0 := by rw [hl] at hs; simpa using hs
    dsimp only
    simp [h0]
  | release hb =>
    have hle : s.inBody ≤ 1 := by split at hs <;> omega
    dsimp only
    simp only [Bool.false_eq_true, if_false]
    omega

theorem mtxInv_reachable {s : MtxSys} (h : MtxReachable s) : MtxInv s := by
  induction h with
  | refl => simp [MtxInv, MtxInit]
  | tail _ hstep ih => exact mtxInv_step hstep ih

/-! ### Helper lemmas -/

theorem changeState_state (i : Inst) (s : State) : (changeState i s).state = s := by
  unfold changeState
  split
  next h => rw [← h]
  next => rfl

theorem changeState_delivered (i : Inst) (s : State) :
    (changeState i s).delivered = i.delivered := by
  unfold changeState
  split <;> rfl

theorem recvUp_state (i : Inst) (d : Delivery) : (recvUp i d).state = i.state := rfl

theorem runGnutlsRecord_state (rc : List GRecStep) :
    ∀ i : Inst, ((runGnutlsRecord i rc).1).state = i.state := by
  induction rc with
  | nil => intro i; rfl
  | cons st rest ih =>
    intro i
    cases st <;> simp [runGnutlsRecord, ih, recvUp]

theorem runGnutlsRecord_eosCount (rc : List GRecStep) :
    ∀ i : Inst, ((runGnutlsRecord i rc).1).delivered.count Delivery.eos
      = i.delivered.count Delivery.eos := by
  induction rc with
  | nil => intro i; rfl
  | cons st rest ih =>
    intro i
    cases st <;> simp [runGnutlsRecord, ih, recvUp, List.count_append]

theorem gnutlsPhases_eosCount (i : Inst) (hs : List GHsStep) (rc : List GRecStep) :
    ((gnutlsPhases i hs rc).1).delivered.count Delivery.eos
      = i.delivered.count Delivery.eos := by
  unfold gnutlsPhases
  split
  · cases runGnutlsHandshake hs with
    | early => rfl
    | threw => rfl
    | completed =>
      simp only [runGnutlsRecord_eosCount, changeState_delivered]
  · split
    · simp only [runGnutlsRecord_eosCount]
    · rfl

theorem gnutlsDoRecv_eq_resolve (i : Inst) (hs : List GHsStep) (rc : List GRecStep)
    (h : (gnutlsPhases i hs rc).2 = true) :
    gnutlsDoRecv i hs rc = resolveRecv (gnutlsPhases i hs rc).1 := by
  unfold gnutlsDoRecv
  rcases hp : gnutlsPhases i hs rc with ⟨j, b⟩
  rw [hp] at h
  cases b with
  | false => exact absurd h (by simp)
  | true => rfl

theorem resetDone_running (c : PullCtx) : (resetDone c).running = c.running := by
  unfold resetDone
  rcases c.message with _ | m
  · rfl
  · dsimp only
    split <;> rfl

theorem resetDone_delivered (c : PullCtx) : (resetDone c).delivered = c.delivered := by
  unfold resetDone
  rcases c.message with _ | m
  · rfl
  · dsimp only
    split <;> rfl

theorem refill_running (c : PullCtx) : (refill c).running = c.running := by
  unfold refill
  rcases c.message with _ | m <;> rfl

theorem pullCore_running (c : PullCtx) :
    (refill (resetDone c)).running = c.running := by
  rw [refill_running, resetDone_running]

theorem pullCore_delivered (c : PullCtx) (maxlen : Nat) :
    (pullCore c maxlen).2.delivered = (refill (resetDone c)).delivered := by
  unfold pullCore
  rcases hm : (refill (resetDone c)).message with _ | m
  · dsimp only
    rw [hm]
    dsimp only
    split <;> rfl
  · dsimp only
    rw [hm]

theorem popLoop_spec (q : List (List Nat)) :
    (∀ z ∈ (popLoop q).2.2, z = ([] : List Nat)) ∧
    ((∃ m, (popLoop q).1 = some m ∧ ¬m = [] ∧
        q = (popLoop q).2.2 ++ m :: (popLoop q).2.1) ∨
     (q = (popLoop q).2.2 ∧ (popLoop q).2.1 = [] ∧
        ((popLoop q).1 = none ∨ (popLoop q).1 = some []))) := by
  induction q with
  | nil => exact ⟨by simp [popLoop], Or.inr ⟨rfl, rfl, Or.inl rfl⟩⟩
  | cons m rest ih =>
    obtain ⟨ih1, ih2⟩ := ih
    by_cases hm : m = []
    · rcases hp : popLoop rest with ⟨mo, q', ds⟩
      rw [hp] at ih1 ih2
      have hred : popLoop (m :: rest) = (some (mo.getD m), q', m :: ds) := by
        unfold popLoop
        rw [if_pos hm, hp]
      rw [hred]
      dsimp only at ih1 ih2 ⊢
      constructor
      · intro z hz
        rcases List.mem_cons.mp hz with hz | hz
        · rw [hz, hm]
        · exact ih1 z hz
      · rcases ih2 with ⟨m', hmo, hne, hq⟩ | ⟨hq, hq', hmo⟩
        · refine Or.inl ⟨m', ?_, hne, ?_⟩
          · rw [hmo]; rfl
          · rw [hq]; rfl
        · refine Or.inr ⟨by rw [hq], hq', Or.inr ?_⟩
          rcases hmo with hmo | hmo
          · rw [hmo, hm]; rfl
          · rw [hmo]; rfl
    · have hred : popLoop (m :: rest) = (some m, rest, []) := by
        unfold popLoop
        rw [if_neg hm]
      rw [hred]
      exact ⟨by simp, Or.inl ⟨m, rfl, hm, by simp⟩⟩

theorem routeOK_refl (s : OSt) : RouteOK s s :=
  ⟨[], [], by simp, by simp, by simp, by simp, by simp⟩

theorem routeOK_trans {s t u : OSt} (h1 : RouteOK s t) (h2 : RouteOK t u) :
    RouteOK s u := by
  obtain ⟨ps1, ds1, hq1, hb1, hd1, hm1, hc1⟩ := h1
  obtain ⟨ps2, ds2, hq2, hb2, hd2, hm2, hc2⟩ := h2
  refine ⟨ps1 ++ ps2, ds1 ++ ds2, ?_, ?_, ?_, ?_, ?_⟩
  · rw [hq1, hq2, List.append_assoc]
  · rw [hb2, hb1, List.filter_append, List.append_assoc]
  · rw [hd2, hd1, List.append_assoc]
  · intro d hd
    rcases List.mem_append.mp hd with hd | hd
    · exact hm1 d hd
    · exact hm2 d hd
  · rw [List.count_append, List.filter_append, List.length_append, hc1, hc2]

theorem routeOK_of_eq {t t' : OSt} (hq : t'.queue = t.queue) (hb : t'.bio = t.bio)
    (hd : t'.inst.delivered = t.inst.delivered) : RouteOK t t' :=
  ⟨[], [], by simp [hq], by simp [hb], by simp [hd], by simp, by simp⟩

theorem routeOK_route1 (s : OSt) (m : List Nat) (q : List (List Nat))
    (h : s.queue = m :: q) : RouteOK s (opensslRoute1 s m q) := by
  unfold opensslRoute1
  by_cases hm : m = []
  · rw [if_pos hm]
    refine ⟨[m], [Delivery.data m], by simpa using h, ?_, by simp [recvUp], ?_, ?_⟩
    · simp [hm]
    · intro d hd
      rcases List.mem_singleton.mp hd with rfl
      exact Or.inl (by rw [hm])
    · simp [hm]
  · rw [if_neg hm]
    refine ⟨[m], [], by simpa using h, ?_, by simp, by simp, ?_⟩
    · simp [List.filter_singleton, List.isEmpty_iff, hm]
    · simp [List.filter_singleton, List.isEmpty_iff, hm]

theorem foldl_recvUp_delivered (rs : List (List Nat)) :
    ∀ i : Inst, (rs.foldl (fun a r => recvUp a (Delivery.data r)) i).delivered
      = i.delivered ++ rs.map Delivery.data := by
  induction rs with
  | nil => intro i; simp
  | cons r rest ih =>
    intro i
    rw [List.foldl_cons, ih, List.map_cons]
    simp [recvUp]

theorem routeOK_hsPhase (s : OSt) (it : OIter) : RouteOK s (opensslHsPhase s it) := by
  unfold opensslHsPhase
  dsimp only
  split
  · exact routeOK_of_eq rfl rfl (changeState_delivered _ _)
  · exact routeOK_of_eq rfl rfl rfl

theorem routeOK_reads (s : OSt) (it : OIter) (h : ∀ r ∈ it.reads, ¬r = []) :
    RouteOK s (opensslReads s it) := by
  refine ⟨[], it.reads.map Delivery.data, by simp [opensslReads], by simp [opensslReads], ?_, ?_, ?_⟩
  · simp [opensslReads, foldl_recvUp_delivered]
  · intro d hd
    obtain ⟨r, hr, rfl⟩ := List.mem_map.mp hd
    exact Or.inr ⟨r, h r hr, rfl⟩
  · simp only [List.filter_nil, List.length_nil]
    rw [List.count_eq_zero]
    intro hmem
    obtain ⟨r, hr, heq⟩ := List.mem_map.mp hmem
    exact h r hr (by simpa using heq)

theorem routeOK_alert (s : OSt) (it : OIter) : RouteOK s (applyAlert s it) := by
  unfold applyAlert
  split
  · exact routeOK_of_eq rfl rfl rfl
  · exact routeOK_refl s

theorem opensslLoop_route (its : List OIter) :
    ∀ s : OSt, (∀ it ∈ its, ∀ r ∈ it.reads, ¬r = []) →
      RouteOK s (opensslLoop s its).1 := by
  induction its with
  | nil =>
    intro s h
    unfold opensslLoop
    split <;> exact routeOK_refl s
  | cons it rest ih =>
    intro s h
    have hit : ∀ r ∈ it.reads, ¬r = [] := h it (List.mem_cons_self it rest)
    have hrest : ∀ it' ∈ rest, ∀ r ∈ it'.reads, ¬r = [] :=
      fun it' hmem => h it' (List.mem_cons_of_mem it hmem)
    unfold opensslLoop
    by_cases hrun : s.running = false
    · rw [if_pos hrun]
      exact routeOK_refl s
    · rw [if_neg hrun]
      rcases hq : s.queue with _ | ⟨m, q⟩
      · exact routeOK_refl s
      · dsimp only
        have hstep1 : RouteOK s (opensslRoute1 s m q) := routeOK_route1 s m q hq
        by_cases hcn : (opensslRoute1 s m q).inst.state = State.Connecting
        · rw [if_pos hcn]
          rcases it.hs with _ | _ | _
          · dsimp only
            by_cases hc3 : (opensslHsPhase (opensslRoute1 s m q) it).inst.state
                = State.Connected
            · rw [if_pos hc3]
              have hstep3 : RouteOK s (opensslHsPhase (opensslRoute1 s m q) it) :=
                routeOK_trans hstep1 (routeOK_hsPhase _ it)
              have hstep4 :
                  RouteOK s (opensslReads (opensslHsPhase (opensslRoute1 s m q) it) it) :=
                routeOK_trans hstep3 (routeOK_reads _ it hit)
              rcases it.readEnd with _ | _ | _
              · exact routeOK_trans (routeOK_trans hstep4 (routeOK_alert _ it))
                  (ih _ hrest)
              · exact hstep4
              · exact hstep4
            · rw [if_neg hc3]
              exact routeOK_trans
                (routeOK_trans (routeOK_trans hstep1 (routeOK_hsPhase _ it))
                  (routeOK_alert _ it))
                (ih _ hrest)
          · exact hstep1
          · exact hstep1
        · rw [if_neg hcn]
          by_cases hc1 : (opensslRoute1 s m q).inst.state = State.Connected
          · rw [if_pos hc1]
            have hstep4 : RouteOK s (opensslReads (opensslRoute1 s m q) it) :=
              routeOK_trans hstep1 (routeOK_reads _ it hit)
            rcases it.readEnd with _ | _ | _
            · exact routeOK_trans (routeOK_trans hstep4 (routeOK_alert _ it))
                (ih _ hrest)
            · exact hstep4
            · exact hstep4
          · rw [if_neg hc1]
            exact routeOK_trans (routeOK_trans hstep1 (routeOK_alert _ it))
              (ih _ hrest)

/-! ### Claim theorems -/

/-- C1: when the GnuTLS Receive Task (doRecv) reaches terminal
resolution (lines 211-224) with the state equal to Connected —
including after a fatal record fault or a peer closure while Connected
— it transitions to Disconnected and delivers exactly one
end-of-stream signal (recv(nullptr)) upward; when the state is not
Connected at terminal resolution, it transitions to Failed and
delivers no end-of-stream signal. -/
theorem gnutls_terminal_resolution (i : Inst) (hs : List GHsStep) (rc : List GRecStep)
    (hterm : (gnutlsPhases i hs rc).2 = true) :
    ((gnutlsPhases i hs rc).1.state = State.Connected →
       (gnutlsDoRecv i hs rc).state = State.Disconnected ∧
       (gnutlsDoRecv i hs rc).delivered.count Delivery.eos
         = i.delivered.count Delivery.eos + 1) ∧
    (¬(gnutlsPhases i hs rc).1.state = State.Connected →
       (gnutlsDoRecv i hs rc).state = State.Failed ∧
       (gnutlsDoRecv i hs rc).delivered.count Delivery.eos
         = i.delivered.count Delivery.eos) := by
  rw [gnutlsDoRecv_eq_resolve i hs rc hterm]
  constructor
  · intro hc
    unfold resolveRecv
    rw [if_pos hc]
    refine ⟨by rw [recvUp_state, changeState_state], ?_⟩
    show ((changeState (gnutlsPhases i hs rc).1 State.Disconnected).delivered
          ++ [Delivery.eos]).count Delivery.eos = _
    rw [List.count_append, changeState_delivered, gnutlsPhases_eosCount]
    simp
  · intro hn
    unfold resolveRecv
    rw [if_neg hn]
    refine ⟨changeState_state _ _, ?_⟩
    rw [changeState_delivered, gnutlsPhases_eosCount]

/-- Witness for C1: a run that completes the handshake, delivers one
record and then hits a fatal record fault resolves as
Connected-at-terminal. -/
theorem gnutls_terminal_resolution_witness :
    (gnutlsPhases { state := State.Connecting, delivered := [], notified := [] }
        [GHsStep.ok] [GRecStep.okData [1], GRecStep.fatal]).2 = true ∧
    (((gnutlsPhases { state := State.Connecting, delivered := [], notified := [] }
        [GHsStep.ok] [GRecStep.okData [1], GRecStep.fatal]).1.state = State.Connected →
       (gnutlsDoRecv { state := State.Connecting, delivered := [], notified := [] }
         [GHsStep.ok] [GRecStep.okData [1], GRecStep.fatal]).state = State.Disconnected ∧
       (gnutlsDoRecv { state := State.Connecting, delivered := [], notified := [] }
         [GHsStep.ok] [GRecStep.okData [1], GRecStep.fatal]).delivered.count Delivery.eos
         = ({ state := State.Connecting, delivered := [], notified := [] } :
             Inst).delivered.count Delivery.eos + 1) ∧
     (¬(gnutlsPhases { state := State.Connecting, delivered := [], notified := [] }
        [GHsStep.ok] [GRecStep.okData [1], GRecStep.fatal]).1.state = State.Connected →
       (gnutlsDoRecv { state := State.Connecting, delivered := [], notified := [] }
         [GHsStep.ok] [GRecStep.okData [1], GRecStep.fatal]).state = State.Failed ∧
       (gnutlsDoRecv { state := State.Connecting, delivered := [], notified := [] }
         [GHsStep.ok] [GRecStep.okData [1], GRecStep.fatal]).delivered.count Delivery.eos
         = ({ state := State.Connecting, delivered := [], notified := [] } :
             Inst).delivered.count Delivery.eos)) :=
  ⟨by decide, gnutls_terminal_resolution _ _ _ (by decide)⟩

/-- C2 (code bug): terminal states are not final in the GnuTLS
variant.  Its doRecv lacks the state guard present in the MbedTLS and
OpenSSL variants (lines 414-415, 686-687): a Receive Task scheduled
after terminal resolution — e.g. by a further stop() call, whose
enqueueRecv finds the pending counter back at 0 — runs with the state
already Disconnected, skips both phases, and performs a second
transition Disconnected -> Failed with a second observer notification.
No second end-of-stream is delivered. -/
theorem gnutls_doRecv_after_terminal_transitions :
    (gnutlsDoRecv { state := State.Disconnected, delivered := [Delivery.eos],
                    notified := [State.Connected, State.Disconnected] } [] [])
      = { state := State.Failed, delivered := [Delivery.eos],
          notified := [State.Connected, State.Disconnected, State.Failed] } := by
  decide

/-- C8 (code bug): the three backend variants are not substitutable.
On a Receive Task scheduled in the terminal Disconnected state the
GnuTLS doRecv performs an observable transition to Failed (it lacks
the initial state guard), while the MbedTLS and OpenSSL variants
return with no observable effect. -/
theorem backends_diverge_after_terminal :
    (gnutlsDoRecv { state := State.Disconnected, delivered := [],
                    notified := [State.Connected, State.Disconnected] } [] []).state
        = State.Failed ∧
    mbedtlsDoRecv { state := State.Disconnected, delivered := [],
                    notified := [State.Connected, State.Disconnected] } [] []
        = { state := State.Disconnected, delivered := [],
            notified := [State.Connected, State.Disconnected] } ∧
    opensslDoRecv { inst := { state := State.Disconnected, delivered := [],
                              notified := [State.Connected, State.Disconnected] },
                    queue := [], running := true, bio := [], out := [] } []
        = { inst := { state := State.Disconnected, delivered := [],
                      notified := [State.Connected, State.Disconnected] },
            queue := [], running := true, bio := [], out := [] } ∧
    ¬ gnutlsDoRecv { state := State.Disconnected, delivered := [],
                     notified := [State.Connected, State.Disconnected] } [] []
        = { state := State.Disconnected, delivered := [],
            notified := [State.Connected, State.Disconnected] } := by
  decide

/-- C3: in every backend, send() called in any state other than
Connected throws synchronously ("TLS is not open") before touching the
record layer or pushing anything to the lower transport: the state is
returned unchanged (no push log entry, no record log entry) and no
result is produced. -/
theorem send_rejected_outside_connected (s : SendSt) (m : Option (List Nat))
    (chunks : List (List Nat × Bool)) (passRes writeOk : Bool)
    (h : ¬ s.state = State.Connected) :
    gnutlsSend s m chunks passRes writeOk = (s, none) ∧
    mbedtlsSend s m chunks passRes writeOk = (s, none) ∧
    opensslSend s m chunks passRes writeOk = (s, none) := by
  refine ⟨?_, ?_, ?_⟩ <;>
    simp only [gnutlsSend, mbedtlsSend, opensslSend, if_pos h]

/-- Witness for C3: send in the Connecting state. -/
theorem send_rejected_outside_connected_witness :
    ¬ (({ state := State.Connecting, outRes := true, pushLog := [], recLog := [] } :
        SendSt).state = State.Connected) ∧
    (gnutlsSend { state := State.Connecting, outRes := true, pushLog := [], recLog := [] }
        (some [1, 2]) [([3], true)] true true
      = ({ state := State.Connecting, outRes := true, pushLog := [], recLog := [] }, none) ∧
     mbedtlsSend { state := State.Connecting, outRes := true, pushLog := [], recLog := [] }
        (some [1, 2]) [([3], true)] true true
      = ({ state := State.Connecting, outRes := true, pushLog := [], recLog := [] }, none) ∧
     opensslSend { state := State.Connecting, outRes := true, pushLog := [], recLog := [] }
        (some [1, 2]) [([3], true)] true true
      = ({ state := State.Connecting, outRes := true, pushLog := [], recLog := [] }, none)) :=
  ⟨by decide, send_rejected_outside_connected _ _ _ _ _ (by decide)⟩

/-- C4: in every reachable scheduler state the pending counter equals
the number of Receive Tasks enqueued or dispatched-but-not-yet-started
and stays in {0,1}; an enqueueRecv call is a no-op while the counter
is positive, and on the 0 -> 1 edge (counter zero, instance alive) it
increments the counter to one and enqueues exactly one unit of work.
(The decrement performed by every Receive Task execution is the
acquire step of the transition system, lines 163-165.) -/
theorem enqueueRecv_edge (s : Sched) (hr : SchedReachable s) :
    (s.count = 0 ∨ s.count = 1) ∧
    (0 < s.count → enqueueRecv s = s) ∧
    (s.count = 0 → s.alive = true →
       (enqueueRecv s).count = 1 ∧ (enqueueRecv s).queued = s.queued + 1 ∧
       (enqueueRecv s).waiting = s.waiting ∧ (enqueueRecv s).inBody = s.inBody) := by
  obtain ⟨h1, h2, h3⟩ := schedInv_reachable hr
  refine ⟨by omega, ?_, ?_⟩
  · intro hc
    unfold enqueueRecv
    rw [if_pos hc]
  · intro hc ha
    unfold enqueueRecv
    rw [if_neg (by omega), if_pos ha]
    refine ⟨?_, rfl, rfl, rfl⟩
    dsimp only
    omega

/-- Witness for C4: the initial scheduler state is reachable. -/
theorem enqueueRecv_edge_witness :
    SchedReachable SchedInit ∧
    ((SchedInit.count = 0 ∨ SchedInit.count = 1) ∧
     (0 < SchedInit.count → enqueueRecv SchedInit = SchedInit) ∧
     (SchedInit.count = 0 → SchedInit.alive = true →
        (enqueueRecv SchedInit).count = 1 ∧
        (enqueueRecv SchedInit).queued = SchedInit.queued + 1 ∧
        (enqueueRecv SchedInit).waiting = SchedInit.waiting ∧
        (enqueueRecv SchedInit).inBody = SchedInit.inBody)) :=
  ⟨Relation.ReflTransGen.refl, enqueueRecv_edge SchedInit Relation.ReflTransGen.refl⟩

/-- C9: in every reachable state of the mutex model — where arbitrarily
many doRecv tasks may have been spawned by concurrent incoming()/stop()
producers — at most one task is inside the doRecv body: entry requires
acquiring the per-instance mRecvMutex (line 164). -/
theorem doRecv_mutual_exclusion (s : MtxSys) (hr : MtxReachable s) :
    s.inBody ≤ 1 := by
  have h := mtxInv_reachable hr
  unfold MtxInv at h
  split at h <;> omega

/-- Witness for C9: the initial state is reachable. -/
theorem doRecv_mutual_exclusion_witness :
    MtxReachable MtxInit ∧ MtxInit.inBody ≤ 1 :=
  ⟨Relation.ReflTransGen.refl, doRecv_mutual_exclusion MtxInit Relation.ReflTransGen.refl⟩

/-- C5: the pull callback serves bytes strictly from the head buffer
of the incoming queue across successive calls: a held buffer with
bytes remaining stays current (nothing is popped); when a current
buffer is held it copies exactly min(maxlen, bytes remaining) bytes
from the cursor, advances the cursor by exactly that amount, and keeps
the buffer current; with no buffer held it returns the would-block
signal (-1 with errno EAGAIN) while the queue is running and the
end-of-stream signal 0 once the queue is stopped. -/
theorem pull_callback_serves_head (c : PullCtx) (maxlen : Nat) :
    (∀ m, c.message = some m → c.position < m.length → refill (resetDone c) = c) ∧
    (∀ m, (refill (resetDone c)).message = some m →
       (pullCore c maxlen).1
         = PullOut.served ((m.drop (refill (resetDone c)).position).take
             (min maxlen (m.length - (refill (resetDone c)).position))) ∧
       ((m.drop (refill (resetDone c)).position).take
             (min maxlen (m.length - (refill (resetDone c)).position))).length
         = min maxlen (m.length - (refill (resetDone c)).position) ∧
       (pullCore c maxlen).2.position
         = (refill (resetDone c)).position
             + min maxlen (m.length - (refill (resetDone c)).position) ∧
       (pullCore c maxlen).2.message = some m ∧
       (pullCore c maxlen).2.queue = (refill (resetDone c)).queue) ∧
    ((refill (resetDone c)).message = none → c.running = true →
       (pullCore c maxlen).1 = PullOut.wouldBlock ∧
       gnutlsPullRet (pullCore c maxlen).1 = (-1, EAGAIN) ∧
       (pullCore c maxlen).2 = refill (resetDone c)) ∧
    ((refill (resetDone c)).message = none → c.running = false →
       (pullCore c maxlen).1 = PullOut.eofQ ∧
       gnutlsPullRet (pullCore c maxlen).1 = (0, 0) ∧
       (pullCore c maxlen).2 = refill (resetDone c)) := by
  refine ⟨?_, ?_, ?_, ?_⟩
  · intro m h1 h2
    have hr : resetDone c = c := by
      unfold resetDone
      rw [h1]
      dsimp only
      rw [if_neg (Nat.not_le.mpr h2)]
    rw [hr]
    unfold refill
    rw [h1]
  · intro m hm
    unfold pullCore
    dsimp only
    rw [hm]
    dsimp only
    refine ⟨rfl, ?_, rfl, rfl, rfl⟩
    rw [List.length_take, List.length_drop]
    omega
  · intro hm hr
    have hrun : (refill (resetDone c)).running = true := by rw [pullCore_running, hr]
    unfold pullCore
    dsimp only
    rw [hm]
    dsimp only
    rw [if_pos hrun]
    exact ⟨rfl, rfl, rfl⟩
  · intro hm hr
    have hrun : ¬ (refill (resetDone c)).running = true := by
      rw [pullCore_running, hr]
      simp
    unfold pullCore
    dsimp only
    rw [hm]
    dsimp only
    rw [if_neg hrun]
    exact ⟨rfl, rfl, rfl⟩

/-- Witness for C5: the queue holds a zero-size then a three-byte
buffer; a pull with maxlen 2 serves the first two bytes of the
non-empty buffer and advances the cursor to 2. -/
theorem pull_callback_serves_head_witness :
    ((refill (resetDone { message := none, position := 0, queue := [[], [5, 6, 7]],
                          running := true, delivered := [] })).message = some [5, 6, 7]) ∧
    ((pullCore { message := none, position := 0, queue := [[], [5, 6, 7]],
                 running := true, delivered := [] } 2).1
       = PullOut.served (([5, 6, 7].drop
             (refill (resetDone { message := none, position := 0, queue := [[], [5, 6, 7]],
                                  running := true, delivered := [] })).position).take
             (min 2 ([5, 6, 7].length
               - (refill (resetDone { message := none, position := 0,
                                      queue := [[], [5, 6, 7]], running := true,
                                      delivered := [] })).position))) ∧
     (([5, 6, 7].drop
             (refill (resetDone { message := none, position := 0, queue := [[], [5, 6, 7]],
                                  running := true, delivered := [] })).position).take
             (min 2 ([5, 6, 7].length
               - (refill (resetDone { message := none, position := 0,
                                      queue := [[], [5, 6, 7]], running := true,
                                      delivered := [] })).position))).length
       = min 2 ([5, 6, 7].length
           - (refill (resetDone { message := none, position := 0, queue := [[], [5, 6, 7]],
                                  running := true, delivered := [] })).position) ∧
     (pullCore { message := none, position := 0, queue := [[], [5, 6, 7]],
                 running := true, delivered := [] } 2).2.position
       = (refill (resetDone { message := none, position := 0, queue := [[], [5, 6, 7]],
                              running := true, delivered := [] })).position
           + min 2 ([5, 6, 7].length
               - (refill (resetDone { message := none, position := 0,
                                      queue := [[], [5, 6, 7]], running := true,
                                      delivered := [] })).position) ∧
     (pullCore { message := none, position := 0, queue := [[], [5, 6, 7]],
                 running := true, delivered := [] } 2).2.message = some [5, 6, 7] ∧
     (pullCore { message := none, position := 0, queue := [[], [5, 6, 7]],
                 running := true, delivered := [] } 2).2.queue
       = (refill (resetDone { message := none, position := 0, queue := [[], [5, 6, 7]],
                              running := true, delivered := [] })).queue) :=
  ⟨by decide,
   (pull_callback_serves_head { message := none, position := 0, queue := [[], [5, 6, 7]],
                                running := true, delivered := [] } 2).2.1
     [5, 6, 7] (by decide)⟩

/-- C6: zero-length buffers on the incoming side are forwarded
unchanged to the upward receive path and never enter the decrypt path,
while non-empty buffers go to the engine and are never forwarded raw.
Conjuncts: (1) the pop loop of ReadCallback removes exactly a block of
zero-length buffers — every one passed through — and hands the first
non-empty buffer, if any, to the engine as the current message; (2)
the only deliveries a ReadCallback invocation adds upward are
zero-length pass-throughs; (3) bytes are only ever served out of a
non-empty current buffer; (4) in the OpenSSL doRecv loop, the popped
non-empty messages are exactly what is written to the input BIO, and
the added upward deliveries are exactly the zero-length pass-throughs
(one per popped zero-length buffer) plus non-empty engine-produced
records. -/
theorem zero_size_passthrough :
    (∀ q : List (List Nat),
       (∀ z ∈ (popLoop q).2.2, z = ([] : List Nat)) ∧
       ((∃ m, (popLoop q).1 = some m ∧ ¬m = [] ∧
           q = (popLoop q).2.2 ++ m :: (popLoop q).2.1) ∨
        (q = (popLoop q).2.2 ∧ (popLoop q).2.1 = [] ∧
           ((popLoop q).1 = none ∨ (popLoop q).1 = some [])))) ∧
    (∀ (c : PullCtx) (maxlen : Nat),
       ∃ ds : List (List Nat),
         (pullCore c maxlen).2.delivered = c.delivered ++ ds.map Delivery.data ∧
         ∀ z ∈ ds, z = ([] : List Nat)) ∧
    (∀ (c : PullCtx) (maxlen : Nat) (b : List Nat),
       (pullCore c maxlen).1 = PullOut.served b → ¬b = [] →
       ∃ m, (refill (resetDone c)).message = some m ∧ ¬m = []) ∧
    (∀ (its : List OIter) (s : OSt),
       (∀ it ∈ its, ∀ r ∈ it.reads, ¬r = []) →
       RouteOK s (opensslLoop s its).1) := by
  refine ⟨popLoop_spec, ?_, ?_, opensslLoop_route⟩
  · intro c maxlen
    rw [pullCore_delivered]
    rcases hm : (resetDone c).message with _ | m0
    · refine ⟨(popLoop (resetDone c).queue).2.2, ?_, (popLoop_spec _).1⟩
      simp only [refill, hm, resetDone_delivered]
    · refine ⟨[], ?_, by simp⟩
      simp only [refill, hm, resetDone_delivered, List.map_nil, List.append_nil]
  · intro c maxlen b hserved hb
    unfold pullCore at hserved
    dsimp only at hserved
    rcases hm : (refill (resetDone c)).message with _ | m
    · rw [hm] at hserved
      dsimp only at hserved
      split at hserved <;> cases hserved
    · rw [hm] at hserved
      dsimp only at hserved
      refine ⟨m, rfl, ?_⟩
      intro hm0
      apply hb
      have hbs := (PullOut.served.injEq _ _).mp hserved
      rw [← hbs, hm0]
      simp

/-- Witness for C6: a pull serving a non-empty buffer, and an OpenSSL
loop run over a zero-length and a non-empty message with one decrypted
record. -/
theorem zero_size_passthrough_witness :
    ((pullCore { message := none, position := 0, queue := [[5, 6, 7]], running := true,
                 delivered := [] } 4).1 = PullOut.served [5, 6, 7]) ∧
    (¬([5, 6, 7] : List Nat) = []) ∧
    (∃ m, (refill (resetDone { message := none, position := 0, queue := [[5, 6, 7]],
                               running := true, delivered := [] })).message = some m ∧
          ¬m = []) ∧
    (∀ it ∈ ([⟨ORes.ok, false, [], [[7]], ORes.ok, false⟩] : List OIter),
       ∀ r ∈ it.reads, ¬r = []) ∧
    RouteOK { inst := { state := State.Connected, delivered := [], notified := [] },
              queue := [[], [9]], running := true, bio := [], out := [] }
      (opensslLoop
        { inst := { state := State.Connected, delivered := [], notified := [] },
          queue := [[], [9]], running := true, bio := [], out := [] }
        [⟨ORes.ok, false, [], [[7]], ORes.ok, false⟩]).1 :=
  ⟨by decide, by decide,
   zero_size_passthrough.2.2.1
     { message := none, position := 0, queue := [[5, 6, 7]], running := true,
       delivered := [] } 4 [5, 6, 7] (by decide) (by decide),
   by decide,
   zero_size_passthrough.2.2.2 [⟨ORes.ok, false, [], [[7]], ORes.ok, false⟩]
     { inst := { state := State.Connected, delivered := [], notified := [] },
       queue := [[], [9]], running := true, bio := [], out := [] } (by decide)⟩

/-- C7 (code bug): five of the six backend-invoked callbacks translate
a fault into the backend's own error-signaling convention and return
normally (GnuTLS write/read/timeout, lines 227-302; MbedTLS read,
lines 492-528), but the MbedTLS WriteCallback (lines 484-490) has no
try/catch: a fault raised by Transport::outgoing propagates out of the
callback into the mbedtls stack, recorded here by its Except return
type producing an error instead of a translated return value. -/
theorem callback_fault_translation :
    gnutlsWriteCallback (Except.error Fault.exc) 5 = (-1, ECONNRESET) ∧
    gnutlsReadCallback true
        { message := none, position := 0, queue := [[1]], running := true,
          delivered := [] } 4
      = ((-1, ECONNRESET),
         { message := none, position := 0, queue := [[1]], running := true,
           delivered := [] }) ∧
    gnutlsTimeoutCallback true
        { message := none, position := 0, queue := [], running := true,
          delivered := [] } = 1 ∧
    mbedtlsReadCallback true
        { message := none, position := 0, queue := [[1]], running := true,
          delivered := [] } 4
      = (MBEDTLS_ERR_SSL_INTERNAL_ERROR,
         { message := none, position := 0, queue := [[1]], running := true,
           delivered := [] }) ∧
    mbedtlsWriteCallback (Except.error Fault.exc) 5 = Except.error Fault.exc :=
  ⟨by decide, by decide, by decide, by decide, rfl⟩

/-- C10: in the GnuTLS and MbedTLS backends, send() in the Connected
state with a non-empty message and a successful record write returns
the stored result of the most recent push to the lower transport
(mOutgoingResult): the value returned equals the mOutgoingResult field
after the record write; when the engine pushes nothing during this
write, it is the value stored before the call (set by an earlier
flush); and when pushes occur, it is the last push's result. -/
theorem send_returns_stored_push_result (orv : Bool)
    (pl : List (Option (List Nat))) (rl : List (List Nat))
    (b : Nat) (bs : List Nat) (chunks : List (List Nat × Bool))
    (c : List Nat) (r : Bool) (passRes : Bool) :
    ((gnutlsSend { state := State.Connected, outRes := orv, pushLog := pl, recLog := rl }
        (some (b :: bs)) chunks passRes true).2
      = some ((gnutlsSend { state := State.Connected, outRes := orv, pushLog := pl,
                            recLog := rl } (some (b :: bs)) chunks passRes true).1.outRes)) ∧
    ((gnutlsSend { state := State.Connected, outRes := orv, pushLog := pl, recLog := rl }
        (some (b :: bs)) [] passRes true).2 = some orv) ∧
    ((gnutlsSend { state := State.Connected, outRes := orv, pushLog := pl, recLog := rl }
        (some (b :: bs)) (chunks ++ [(c, r)]) passRes true).2 = some r) ∧
    ((mbedtlsSend { state := State.Connected, outRes := orv, pushLog := pl, recLog := rl }
        (some (b :: bs)) chunks passRes true).2
      = some ((mbedtlsSend { state := State.Connected, outRes := orv, pushLog := pl,
                             recLog := rl } (some (b :: bs)) chunks passRes true).1.outRes)) ∧
    ((mbedtlsSend { state := State.Connected, outRes := orv, pushLog := pl, recLog := rl }
        (some (b :: bs)) [] passRes true).2 = some orv) ∧
    ((mbedtlsSend { state := State.Connected, outRes := orv, pushLog := pl, recLog := rl }
        (some (b :: bs)) (chunks ++ [(c, r)]) passRes true).2 = some r) := by
  refine ⟨?_, ?_, ?_, ?_, ?_, ?_⟩ <;>
    simp [gnutlsSend, mbedtlsSend, outgoingStore, List.foldl_append]

end TlsTransport
